import Mathlib

/-!
Verification development for the IndrasNetwork log-analysis scripts
(`pq_analyzer.py` and `stress_analyzer.py`).

Modelling conventions:
* JSON values are modelled by the inductive `Json`.  JSON numbers are
  modelled exactly as rationals; a flag records whether the literal was an
  integer literal (Python distinguishes `int` from `float`).  Python float
  rounding is not modelled: all arithmetic on numbers drawn from logs is
  exact rational arithmetic.
* Python `dict`s are association lists with unique keys (the JSON decoder
  collapses duplicate keys, later occurrences overwriting earlier ones,
  exactly as `json.loads` does).
* Operations that can raise an uncaught Python exception (TypeError,
  AttributeError, ValueError) are modelled with `Option`: `none` means the
  analysis process dies with a traceback.  Python evaluation order,
  including `and`/`or` short-circuiting, is preserved.
-/

/-- A JSON value.  `num intLit q` records whether the literal was a Python
`int` (no fraction, no exponent) together with its exact value. -/
inductive Json where
  | null : Json
  | bool : Bool → Json
  | num : Bool → ℚ → Json
  | str : String → Json
  | arr : List Json → Json
  | obj : List (String × Json) → Json
deriving Repr

mutual

/-- Python `==` on values occurring in logs: numbers (and booleans, which
are numbers in Python) compare by value, other values structurally. -/
def jsonBeq : Json → Json → Bool
  | .null, .null => true
  | .bool a, .bool b => a == b
  | .bool a, .num _ q => decide ((if a then (1 : ℚ) else 0) = q)
  | .num _ q, .bool a => decide (q = (if a then (1 : ℚ) else 0))
  | .num _ p, .num _ q => decide (p = q)
  | .str a, .str b => a == b
  | .arr as, .arr bs => jsonBeqList as bs
  | .obj as, .obj bs => jsonBeqKV as bs
  | _, _ => false

/-- Elementwise Python `==` on lists. -/
def jsonBeqList : List Json → List Json → Bool
  | [], [] => true
  | a :: as, b :: bs => jsonBeq a b && jsonBeqList as bs
  | _, _ => false

/-- Python `==` on dicts, represented as key-ordered association lists. -/
def jsonBeqKV : List (String × Json) → List (String × Json) → Bool
  | [], [] => true
  | (k, a) :: as, (l, b) :: bs => k == l && jsonBeq a b && jsonBeqKV as bs
  | _, _ => false

end

mutual

theorem jsonBeq_refl : ∀ j, jsonBeq j j = true
  | .null => rfl
  | .bool a => by cases a <;> rfl
  | .num _ q => by simp [jsonBeq]
  | .str s => by simp [jsonBeq]
  | .arr as => by simpa [jsonBeq] using jsonBeqList_refl as
  | .obj as => by simpa [jsonBeq] using jsonBeqKV_refl as

theorem jsonBeqList_refl : ∀ l, jsonBeqList l l = true
  | [] => rfl
  | a :: as => by simp [jsonBeqList, jsonBeq_refl a, jsonBeqList_refl as]

theorem jsonBeqKV_refl : ∀ l, jsonBeqKV l l = true
  | [] => rfl
  | (k, a) :: as => by simp [jsonBeqKV, jsonBeq_refl a, jsonBeqKV_refl as]

end

/-- Python truthiness of a JSON value. -/
def truthy : Json → Bool
  | .null => false
  | .bool b => b
  | .num _ q => decide (q ≠ 0)
  | .str s => decide (s ≠ "")
  | .arr xs => !xs.isEmpty
  | .obj kvs => !kvs.isEmpty

/-- Values Python can use as `dict`/`set` keys (hashable values). -/
def hashableJ : Json → Bool
  | .arr _ => false
  | .obj _ => false
  | _ => true

/-- Numeric value of a Python number (`bool` is an `int` in Python). -/
def numVal : Json → Option ℚ
  | .num _ q => some q
  | .bool b => some (if b then 1 else 0)
  | _ => none

/-- First-match association-list lookup (objects have unique keys). -/
def jget (kvs : List (String × Json)) (k : String) : Option Json :=
  match kvs with
  | [] => none
  | (k0, v) :: t => if k0 = k then some v else jget t k

/-- `d.get(k, dflt)` on a dict. -/
def jgetD (kvs : List (String × Json)) (k : String) (dflt : Json) : Json :=
  (jget kvs k).getD dflt

/-- Insert with overwrite, preserving first-insertion position, exactly the
Python `dict` assignment semantics. -/
def objInsert (kvs : List (String × Json)) (k : String) (v : Json) :
    List (String × Json) :=
  match kvs with
  | [] => [(k, v)]
  | (k0, v0) :: t => if k0 = k then (k0, v) :: t else (k0, v0) :: objInsert t k v

/-- Substring test on character lists. -/
def subList (n : List Char) : List Char → Bool
  | [] => n.isPrefixOf ([] : List Char)
  | c :: t => n.isPrefixOf (c :: t) || subList n t

/-- Python `needle in hay` for strings. -/
def strContains (hay needle : String) : Bool :=
  subList needle.toList hay.toList

/-- Python `str.lower()` (ASCII range). -/
def pyLower (s : String) : String :=
  String.mk (s.toList.map Char.toLower)

/-- Characters stripped by Python `str.strip()` (ASCII whitespace). -/
def pyWs (c : Char) : Bool :=
  c = ' ' || c = '\t' || c = '\n' || c = '\r' || c = Char.ofNat 11 || c = Char.ofNat 12

/-- Python `str.strip()`. -/
def pyStrip (s : String) : String :=
  String.mk (((s.toList.dropWhile pyWs).reverse.dropWhile pyWs).reverse)

/-- Truncation of a rational toward zero, the behaviour of Python `int()`
on a float. -/
def ratTrunc (q : ℚ) : ℤ :=
  if q < 0 then -((-q).floor) else q.floor

/-- Python `in` for a string key against an arbitrary container:
substring test on strings, `==` membership on lists, key lookup on dicts;
`none` models the TypeError raised on other values. -/
def memIndexPy : Json → String → Option Bool
  | .obj kvs, k => some (jget kvs k).isSome
  | .str s, k => some (strContains s k)
  | .arr xs, k => some (xs.any fun x => jsonBeq x (.str k))
  | _, _ => none

/-- Python `container[key]` for a string key; `none` models the TypeError
on strings/lists (string indices must be integers) and other values. -/
def indexPy : Json → String → Option Json
  | .obj kvs, k => jget kvs k
  | _, _ => none

/-- Shorthand for an integer JSON literal. -/
def intJ (n : ℤ) : Json := .num true (n : ℚ)

/-- Shorthand for a JSON number carrying an arbitrary rational; the
integer-literal flag is set exactly when the value is integral. -/
def qnum (q : ℚ) : Json := .num (q.den == 1) q

/-! ### A JSON decoder modelling `json.loads` -/

/-- Whitespace accepted between JSON tokens. -/
def jsonWsChar (c : Char) : Bool :=
  c = ' ' || c = '\t' || c = '\n' || c = '\r'

/-- The `{` character, written by code point. -/
def obrace : Char := Char.ofNat 123

/-- The `}` character, written by code point. -/
def cbrace : Char := Char.ofNat 125

/-- Value of one hexadecimal digit. -/
def hexVal (c : Char) : Option ℕ :=
  if c.isDigit then some (c.toNat - 48)
  else if 'a' ≤ c && c ≤ 'f' then some (c.toNat - 87)
  else if 'A' ≤ c && c ≤ 'F' then some (c.toNat - 55)
  else none

/-- Decode a JSON string body (the opening quote already consumed),
returning the string and the remaining input.  Escapes follow the JSON
grammar; unescaped control characters are rejected as `json.loads` does in
strict mode. -/
def pStrGo : List Char → List Char → Option (String × List Char)
  | [], _ => none
  | c :: rest, acc =>
    if c = '"' then some (String.mk acc.reverse, rest)
    else if c = '\\' then
      match rest with
      | [] => none
      | e :: r2 =>
        if e = '"' then pStrGo r2 ('"' :: acc)
        else if e = '\\' then pStrGo r2 ('\\' :: acc)
        else if e = '/' then pStrGo r2 ('/' :: acc)
        else if e = 'b' then pStrGo r2 (Char.ofNat 8 :: acc)
        else if e = 'f' then pStrGo r2 (Char.ofNat 12 :: acc)
        else if e = 'n' then pStrGo r2 ('\n' :: acc)
        else if e = 'r' then pStrGo r2 ('\r' :: acc)
        else if e = 't' then pStrGo r2 ('\t' :: acc)
        else if e = 'u' then
          match r2 with
          | a :: b :: c2 :: d :: r3 =>
            match hexVal a, hexVal b, hexVal c2, hexVal d with
            | some ha, some hb, some hc, some hd =>
              pStrGo r3 (Char.ofNat (((ha * 16 + hb) * 16 + hc) * 16 + hd) :: acc)
            | _, _, _, _ => none
          | _ => none
        else none
    else if c.toNat < 32 then none
    else pStrGo rest (c :: acc)

/-- Numeric value of a digit string. -/
def digitsToNat (ds : List Char) : ℕ :=
  ds.foldl (fun n c => 10 * n + (c.toNat - 48)) 0

/-- Decode a JSON number literal: optional sign, integer part without
leading zeros, optional fraction, optional exponent.  The integer-literal
flag is set exactly when neither fraction nor exponent is present, which
is when `json.loads` produces a Python `int`. -/
def pNum (cs : List Char) : Option (Json × List Char) :=
  let (neg, cs1) := match cs with
    | '-' :: t => (true, t)
    | _ => (false, cs)
  match cs1 with
  | [] => none
  | d0 :: _ =>
    if !d0.isDigit then none else
    let ds := cs1.takeWhile Char.isDigit
    let cs2 := cs1.dropWhile Char.isDigit
    if 1 < ds.length && ds.headD '0' = '0' then none else
    let (fracDs, cs3, fracOk, hasFrac) := match cs2 with
      | '.' :: t =>
        let fs := t.takeWhile Char.isDigit
        (fs, t.dropWhile Char.isDigit, !fs.isEmpty, true)
      | _ => ([], cs2, true, false)
    if !fracOk then none else
    let (expNeg, expDs, cs4, expOk, hasExp) := match cs3 with
      | 'e' :: t | 'E' :: t =>
        let (en, t2) := match t with
          | '+' :: u => (false, u)
          | '-' :: u => (true, u)
          | _ => (false, t)
        let es := t2.takeWhile Char.isDigit
        (en, es, t2.dropWhile Char.isDigit, !es.isEmpty, true)
      | _ => (false, [], cs3, true, false)
    if !expOk then none else
    let mant : ℚ := (digitsToNat (ds ++ fracDs) : ℚ) / ((10 : ℚ) ^ fracDs.length)
    let e10 : ℚ := (10 : ℚ) ^ digitsToNat expDs
    let mag : ℚ := if expNeg then mant / e10 else mant * e10
    let q : ℚ := if neg then -mag else mag
    some (.num (!hasFrac && !hasExp) q, cs4)

mutual

/-- Decode one JSON value (fuelled; every recursive call consumes input,
so fuel `length + 1` always suffices). -/
def pVal (fuel : ℕ) (cs : List Char) : Option (Json × List Char) :=
  match fuel with
  | 0 => none
  | n + 1 =>
    let cs := cs.dropWhile jsonWsChar
    match cs with
    | [] => none
    | c :: rest =>
      if c = '"' then (pStrGo rest []).map fun p => (.str p.1, p.2)
      else if c = obrace then
        let r1 := rest.dropWhile jsonWsChar
        match r1 with
        | c2 :: r2 =>
          if c2 = cbrace then some (.obj [], r2)
          else (pObjItems n r1 []).map fun p => (.obj p.1, p.2)
        | [] => none
      else if c = '[' then
        let r1 := rest.dropWhile jsonWsChar
        match r1 with
        | c2 :: r2 =>
          if c2 = ']' then some (.arr [], r2)
          else (pArrItems n r1 []).map fun p => (.arr p.1.reverse, p.2)
        | [] => none
      else if c = 't' then
        match rest with
        | 'r' :: 'u' :: 'e' :: r => some (.bool true, r)
        | _ => none
      else if c = 'f' then
        match rest with
        | 'a' :: 'l' :: 's' :: 'e' :: r => some (.bool false, r)
        | _ => none
      else if c = 'n' then
        match rest with
        | 'u' :: 'l' :: 'l' :: r => some (.null, r)
        | _ => none
      else pNum cs

/-- Decode the members of a JSON object, collapsing duplicate keys with
later-overwrites-earlier semantics, as Python dict construction does. -/
def pObjItems (fuel : ℕ) (cs : List Char) (acc : List (String × Json)) :
    Option (List (String × Json) × List Char) :=
  match fuel with
  | 0 => none
  | n + 1 =>
    match cs.dropWhile jsonWsChar with
    | '"' :: r => do
      let (k, r1) ← pStrGo r []
      match r1.dropWhile jsonWsChar with
      | ':' :: r3 => do
        let (v, r4) ← pVal n r3
        match r4.dropWhile jsonWsChar with
        | ',' :: r6 => pObjItems n r6 (objInsert acc k v)
        | c :: r6 =>
          if c = cbrace then some (objInsert acc k v, r6) else none
        | [] => none
      | _ => none
    | _ => none

/-- Decode the elements of a JSON array (accumulated in reverse). -/
def pArrItems (fuel : ℕ) (cs : List Char) (acc : List Json) :
    Option (List Json × List Char) :=
  match fuel with
  | 0 => none
  | n + 1 => do
    let (v, r1) ← pVal n cs
    match r1.dropWhile jsonWsChar with
    | ',' :: r2 => pArrItems n r2 (v :: acc)
    | c :: r2 => if c = ']' then some (v :: acc, r2) else none
    | [] => none

end

/-- `json.loads`: decode one JSON document, allowing surrounding
whitespace, rejecting trailing garbage.  `none` models `JSONDecodeError`. -/
def parseJson (s : String) : Option Json :=
  match pVal (s.toList.length + 1) s.toList with
  | some (v, rest) => if (rest.dropWhile jsonWsChar).isEmpty then some v else none
  | none => none

/-! ### `pq_analyzer.py`: metrics data model -/

/-- Mirror of the `LatencyMetrics` dataclass. -/
structure LatencyMetrics where
  count : ℕ
  total_us : ℤ
  min_us : ℤ
  max_us : ℤ
  p50_us : ℤ
  p95_us : ℤ
  p99_us : ℤ
  avg_us : ℚ
  ops_per_sec : ℚ
deriving Repr, DecidableEq

/-- `LatencyMetrics()` with all dataclass defaults. -/
def emptyLatencyMetrics : LatencyMetrics :=
  ⟨0, 0, 0, 0, 0, 0, 0, 0, 0⟩

/-- Mirror of the `OperationMetrics` dataclass. -/
structure OperationMetrics where
  operation : String
  successes : ℚ
  failures : ℚ
  latencies : List ℤ
deriving Repr, DecidableEq

/-- `OperationMetrics.calculate_stats`: sort ascending, nearest-rank
percentiles at index `int(count * p / 100)` clamped to `[0, count-1]`,
exact mean, throughput `1_000_000 / mean` when the mean is positive. -/
def calculateStats (latencies : List ℤ) : LatencyMetrics :=
  if latencies.isEmpty then emptyLatencyMetrics
  else
    let sorted := List.insertionSort (· ≤ ·) latencies
    let count := sorted.length
    let pct : ℕ → ℤ := fun p => sorted.getD (max 0 (min (count * p / 100) (count - 1))) 0
    let avg : ℚ := (sorted.sum : ℚ) / (count : ℚ)
    { count := count
      total_us := sorted.sum
      min_us := sorted.headD 0
      max_us := sorted.getLastD 0
      p50_us := pct 50
      p95_us := pct 95
      p99_us := pct 99
      avg_us := avg
      ops_per_sec := if 0 < avg then 1000000 / avg else 0 }

/-- The mutable state of a `PQAnalyzer` instance. -/
structure PQState where
  sign : OperationMetrics
  verify : OperationMetrics
  kem_encap : OperationMetrics
  kem_decap : OperationMetrics
  invites_created : ℚ
  invites_accepted : ℚ
  invites_failed : ℚ
  scenario_name : Json
  trace_ids : List Json

/-- `PQAnalyzer.__init__`. -/
def initPQState : PQState :=
  { sign := ⟨"sign", 0, 0, []⟩
    verify := ⟨"verify", 0, 0, []⟩
    kem_encap := ⟨"kem_encap", 0, 0, []⟩
    kem_decap := ⟨"kem_decap", 0, 0, []⟩
    invites_created := 0
    invites_accepted := 0
    invites_failed := 0
    scenario_name := .str "unknown"
    trace_ids := [] }

/-- Decoding of a possibly string-encoded `fields` payload, from the top
of `_process_log_entry`: a string is decoded as inner JSON, decode failure
falls back to the empty dict, any other value is used as-is. -/
def fieldsOf (ekvs : List (String × Json)) : Json :=
  match jget ekvs "fields" with
  | none => .obj []
  | some (.str s) => (parseJson s).getD (.obj [])
  | some v => v

/-- `dict.get(k, d)`; the non-dict case is unreachable at its call sites
(a successful dict index has already established the receiver is a dict). -/
def pyGetD (fields : Json) (k : String) (d : Json) : Json :=
  match fields with
  | .obj kvs => jgetD kvs k d
  | _ => d

/-- Python `int(x)`: truncation for numbers, `bool` as 0/1, base-10 parse
for strings; `none` models the TypeError/ValueError on everything else. -/
def pyIntStr (s : String) : Option ℤ :=
  let cs := (pyStrip s).toList
  let p := match cs with
    | '-' :: t => ((-1 : ℤ), t)
    | '+' :: t => ((1 : ℤ), t)
    | _ => ((1 : ℤ), cs)
  if p.2.isEmpty || !(p.2.all Char.isDigit) then none
  else some (p.1 * (digitsToNat p.2 : ℤ))

/-- Python `int(x)` on a JSON value. -/
def pyIntOf : Json → Option ℤ
  | .num _ q => some (ratTrunc q)
  | .bool b => some (if b then 1 else 0)
  | .str s => pyIntStr s
  | _ => none

/-- The argument Python computes for `range(min(count, 100))`: an `int`
count passes through, a `bool` is 0/1, and a float count works only when
it exceeds 100 (then `min` picks the `int` 100); otherwise `range`
raises TypeError. -/
def rangeMinArg : Json → Option ℤ
  | .num true q => if q.den = 1 then some q.num else none
  | .bool b => some (if b then 1 else 0)
  | .num false q => if 100 < q then some 100 else none
  | _ => none

/-- The body of one `op == ... and count > 0` branch: append up to 100
synthetic samples at `int(avg_us)`, then raise `successes` to
`max(successes, count)`. -/
def synthSamples (om : OperationMetrics) (countJ avgJ : Json) (c : ℚ) :
    Option OperationMetrics := do
  let m ← rangeMinArg countJ
  let av ← pyIntOf avgJ
  some { om with
    latencies := om.latencies ++ List.replicate (min m 100).toNat av
    successes := max om.successes c }

/-- Scenario-name extraction lines of `_process_log_entry`. -/
def scenarioStage (s : PQState) (ekvs : List (String × Json)) (fields : Json) :
    Option PQState :=
  match jget ekvs "scenario" with
  | some v => some { s with scenario_name := v }
  | none =>
    match memIndexPy fields "scenario" with
    | none => none
    | some true => do
      let v ← indexPy fields "scenario"
      some { s with scenario_name := v }
    | some false => some s

/-- `set.add` with the hashability requirement of Python sets. -/
def addTrace (l : List Json) (v : Json) : Option (List Json) :=
  if hashableJ v then some (if l.any (fun x => jsonBeq x v) then l else l ++ [v])
  else none

/-- Trace-id tracking lines of `_process_log_entry`. -/
def traceStage (s : PQState) (ekvs : List (String × Json)) (fields : Json) :
    Option PQState :=
  match jget ekvs "trace_id" with
  | some v => do
    let t ← addTrace s.trace_ids v
    some { s with trace_ids := t }
  | none =>
    match memIndexPy fields "trace_id" with
    | none => none
    | some true => do
      let v ← indexPy fields "trace_id"
      let t ← addTrace s.trace_ids v
      some { s with trace_ids := t }
    | some false => some s

/-- The `"operation" in fields` summary-benchmark block of
`_process_log_entry`.  (`latency_p99_us` and `ops_per_second` are fetched
by the source but never used.) -/
def operationStage (s : PQState) (fields : Json) : Option PQState :=
  match memIndexPy fields "operation" with
  | none => none
  | some false => some s
  | some true => do
    let op ← indexPy fields "operation"
    let countJ := pyGetD fields "count" (intJ 0)
    let avgJ := pyGetD fields "latency_avg_us" (intJ 0)
    if jsonBeq op (.str "sign") then do
      let c ← numVal countJ
      if 0 < c then do
        let om ← synthSamples s.sign countJ avgJ c
        some { s with sign := om }
      else some s
    else if jsonBeq op (.str "verify") then do
      let c ← numVal countJ
      if 0 < c then do
        let om ← synthSamples s.verify countJ avgJ c
        some { s with verify := om }
      else some s
    else if jsonBeq op (.str "encapsulate") then do
      let c ← numVal countJ
      if 0 < c then do
        let om ← synthSamples s.kem_encap countJ avgJ c
        some { s with kem_encap := om }
      else some s
    else if jsonBeq op (.str "decapsulate") then do
      let c ← numVal countJ
      if 0 < c then do
        let om ← synthSamples s.kem_decap countJ avgJ c
        some { s with kem_decap := om }
      else some s
    else some s

/-- One `if k in fields: x = max(x, fields.get(k, 0))` completion-summary
update. -/
def maxCounter (fields : Json) (k : String) (cur : ℚ) : Option ℚ :=
  match memIndexPy fields k with
  | none => none
  | some false => some cur
  | some true =>
    match fields with
    | .obj kvs => do
      let q ← numVal (jgetD kvs k (intJ 0))
      some (max cur q)
    | _ => none

/-- The completion-summary block of `_process_log_entry` (cumulative
totals folded in with `max`). -/
def completionStage (s : PQState) (fields : Json) : Option PQState := do
  let v1 ← maxCounter fields "total_signatures_created" s.sign.successes
  let s := { s with sign := { s.sign with successes := v1 } }
  let v2 ← maxCounter fields "total_signatures_verified" s.verify.successes
  let s := { s with verify := { s.verify with successes := v2 } }
  let v3 ← maxCounter fields "signature_failures" s.verify.failures
  let s := { s with verify := { s.verify with failures := v3 } }
  let v4 ← maxCounter fields "total_kem_encapsulations" s.kem_encap.successes
  let s := { s with kem_encap := { s.kem_encap with successes := v4 } }
  let v5 ← maxCounter fields "total_kem_decapsulations" s.kem_decap.successes
  let s := { s with kem_decap := { s.kem_decap with successes := v5 } }
  let v6 ← maxCounter fields "kem_failures" s.kem_decap.failures
  some { s with kem_decap := { s.kem_decap with failures := v6 } }

/-- The invite-counter block of `_process_log_entry`. -/
def inviteStage (s : PQState) (fields : Json) : Option PQState := do
  let v1 ← maxCounter fields "invites_created" s.invites_created
  let s := { s with invites_created := v1 }
  let v2 ← maxCounter fields "invites_accepted" s.invites_accepted
  let s := { s with invites_accepted := v2 }
  let v3 ← maxCounter fields "invites_failed" s.invites_failed
  some { s with invites_failed := v3 }

/-- One `if k in fields and not latencies:` summary-average sample. -/
def avgSample (fields : Json) (k : String) (om : OperationMetrics) :
    Option OperationMetrics :=
  match memIndexPy fields k with
  | none => none
  | some false => some om
  | some true =>
    if om.latencies.isEmpty then do
      let v ← indexPy fields k
      let q ← numVal v
      if 0 < q then some { om with latencies := om.latencies ++ [ratTrunc q] }
      else some om
    else some om

/-- The four summary-average blocks at the end of `_process_log_entry`. -/
def avgStage (s : PQState) (fields : Json) : Option PQState := do
  let o1 ← avgSample fields "avg_sign_latency_us" s.sign
  let s := { s with sign := o1 }
  let o2 ← avgSample fields "avg_verify_latency_us" s.verify
  let s := { s with verify := o2 }
  let o3 ← avgSample fields "avg_encap_latency_us" s.kem_encap
  let s := { s with kem_encap := o3 }
  let o4 ← avgSample fields "avg_decap_latency_us" s.kem_decap
  some { s with kem_decap := o4 }

/-- `PQAnalyzer._process_log_entry`.  `none` models an uncaught Python
exception, which kills the analysis (only `JSONDecodeError` is caught by
the caller).  (The `msg` local of the source is dead code and omitted.) -/
def processEntry (s : PQState) (entry : Json) : Option PQState :=
  match entry with
  | .obj ekvs => do
    let fields := fieldsOf ekvs
    let s ← scenarioStage s ekvs fields
    let s ← traceStage s ekvs fields
    let s ← operationStage s fields
    let s ← completionStage s fields
    let s ← inviteStage s fields
    avgStage s fields
  | _ => none

/-- Processing of a stream of already-decoded entries. -/
def pqProcessAll (s : PQState) : List Json → Option PQState
  | [] => some s
  | e :: es => do
    let s' ← processEntry s e
    pqProcessAll s' es

/-- `PQAnalyzer.parse_log_file` over the lines of one file: strip each
line, skip blanks, decode JSON, count a warning and continue on decode
failure, process decoded entries. -/
def pqProcessLines (s : PQState) : List String → Option (PQState × ℕ)
  | [] => some (s, 0)
  | l :: ls =>
    let t := pyStrip l
    if t = "" then pqProcessLines s ls
    else
      match parseJson t with
      | none => (pqProcessLines s ls).map fun p => (p.1, p.2 + 1)
      | some j => do
        let s' ← processEntry s j
        pqProcessLines s' ls

/-! ### `pq_analyzer.py`: threshold policy and report -/

/-- One category entry of a threshold policy (`DEFAULT_THRESHOLDS` style);
bounds are optional because a category may declare any subset of them. -/
structure ThresholdCat where
  latency_p99_us : Option ℚ
  throughput_min : Option ℚ
  failure_rate_max : Option ℚ
  success_rate_min : Option ℚ
deriving Repr, DecidableEq

/-- The empty category (`{}`), used when a category key is absent. -/
def emptyCat : ThresholdCat := ⟨none, none, none, none⟩

/-- A threshold policy: the five category keys the analyzer ever looks up. -/
structure Thresholds where
  signature : Option ThresholdCat
  verification : Option ThresholdCat
  kem_encap : Option ThresholdCat
  kem_decap : Option ThresholdCat
  invite : Option ThresholdCat
deriving Repr, DecidableEq

/-- `PQAnalyzer.DEFAULT_THRESHOLDS` (float literals modelled exactly). -/
def defaultThresholds : Thresholds :=
  { signature := some ⟨some 1000, some 1000, some (1/100), none⟩
    verification := some ⟨some 500, some 2000, some (1/100), none⟩
    kem_encap := some ⟨some 200, some 5000, none, none⟩
    kem_decap := some ⟨some 200, some 5000, some (1/100), none⟩
    invite := some ⟨none, none, none, some (19/20)⟩ }

/-- Mirror of the `ThresholdCheck` dataclass. -/
structure ThresholdCheck where
  metric : String
  target : ℚ
  actual : ℚ
  passed : Bool
deriving Repr, DecidableEq

/-- `PQAnalyzer.check_thresholds`: one check per declared latency/throughput
bound of the category looked up under `key` (absent category: no checks). -/
def checkThresholds (catOpt : Option ThresholdCat) (key : String)
    (m : LatencyMetrics) : List ThresholdCheck :=
  let cat := catOpt.getD emptyCat
  (match cat.latency_p99_us with
   | some thr =>
     [⟨key ++ "_latency_p99_us", thr, (m.p99_us : ℚ), decide ((m.p99_us : ℚ) ≤ thr)⟩]
   | none => []) ++
  (match cat.throughput_min with
   | some thr =>
     [⟨key ++ "_throughput", thr, m.ops_per_sec, decide (thr ≤ m.ops_per_sec)⟩]
   | none => [])

/-- `sign_total` as computed (and then never used) by `generate_report`. -/
def signTotal (s : PQState) : ℚ := s.sign.successes + s.sign.failures

/-- The fields of the report dict produced by `PQAnalyzer.generate_report`
that carry decision content (presentation-only fields omitted). -/
structure PQReport where
  scenario : Json
  status : String
  checks : List ThresholdCheck
  passedCount : ℕ
  failedCount : ℕ
  totalCount : ℕ
  inviteSuccessRate : ℚ
  totalPQOperations : ℚ

/-- `PQAnalyzer.generate_report`.  Latency/throughput checks come from
`check_thresholds` per category; failure-rate checks are emitted only for
`verification` and `kem_decap` and only when the corresponding total is
positive; the invite success-rate check only when `accepted + failed` is
positive.  (`sign_total` is computed by the source but never used.) -/
def generateReport (t : Thresholds) (s : PQState) : PQReport :=
  let signStats := calculateStats s.sign.latencies
  let verifyStats := calculateStats s.verify.latencies
  let encapStats := calculateStats s.kem_encap.latencies
  let decapStats := calculateStats s.kem_decap.latencies
  let baseChecks :=
    checkThresholds t.signature "signature" signStats ++
    checkThresholds t.verification "verification" verifyStats ++
    checkThresholds t.kem_encap "kem_encap" encapStats ++
    checkThresholds t.kem_decap "kem_decap" decapStats
  let verifyTotal := s.verify.successes + s.verify.failures
  let decapTotal := s.kem_decap.successes + s.kem_decap.failures
  let verifyChecks :=
    if 0 < verifyTotal then
      let rate := s.verify.failures / verifyTotal
      let thr := ((t.verification.getD emptyCat).failure_rate_max).getD (1/100)
      [⟨"verification_failure_rate", thr, rate, decide (rate ≤ thr)⟩]
    else []
  let decapChecks :=
    if 0 < decapTotal then
      let rate := s.kem_decap.failures / decapTotal
      let thr := ((t.kem_decap.getD emptyCat).failure_rate_max).getD (1/100)
      [⟨"kem_decap_failure_rate", thr, rate, decide (rate ≤ thr)⟩]
    else []
  let inviteTotal := s.invites_accepted + s.invites_failed
  let inviteChecks :=
    if 0 < inviteTotal then
      let rate := s.invites_accepted / inviteTotal
      let thr := ((t.invite.getD emptyCat).success_rate_min).getD (19/20)
      [⟨"invite_success_rate", thr, rate, decide (thr ≤ rate)⟩]
    else []
  let allChecks := baseChecks ++ verifyChecks ++ decapChecks ++ inviteChecks
  { scenario := s.scenario_name
    status := if allChecks.all (fun c => c.passed) then "pass" else "fail"
    checks := allChecks
    passedCount := (allChecks.filter (fun c => c.passed)).length
    failedCount := (allChecks.filter (fun c => !c.passed)).length
    totalCount := allChecks.length
    inviteSuccessRate := if 0 < inviteTotal then s.invites_accepted / inviteTotal else 1
    totalPQOperations :=
      s.sign.successes + s.verify.successes +
      s.kem_encap.successes + s.kem_decap.successes }

/-! ### `stress_analyzer.py`: log entries and field lookup -/

/-- Mirror of the `LogEntry` class: the six attributes extracted in
`__init__`, with their Python defaults (the raw dict itself is also kept
by the source but never read except through these). -/
structure LogEntry where
  timestamp : Json
  level : Json
  target : Json
  message : Json
  fields : Json
  span : Json

/-- `LogEntry.__init__`: attribute extraction via `dict.get` with
defaults.  `none` models the AttributeError on a non-dict record (which
the file-level handler of `parse_log_file` turns into stopping the file).
Note the `fields` value is stored as-is: unlike `pq_analyzer`, no inner
decode of a string-encoded payload happens here. -/
def mkLogEntry : Json → Option LogEntry
  | .obj kvs =>
    some ⟨jgetD kvs "timestamp" (.str ""),
          jgetD kvs "level" (.str "UNKNOWN"),
          jgetD kvs "target" (.str ""),
          jgetD kvs "message" (.str ""),
          jgetD kvs "fields" (.obj []),
          jgetD kvs "span" (.obj [])⟩
  | _ => none

/-- `LogEntry.get_field`: look in `fields`, then `span`, default `None`
(modelled as `Json.null`); `none` models the TypeError raised by `in` or
indexing on non-dict payloads. -/
def getFieldPy (e : LogEntry) (k : String) : Option Json :=
  match memIndexPy e.fields k with
  | none => none
  | some true => indexPy e.fields k
  | some false =>
    match memIndexPy e.span k with
    | none => none
    | some true => indexPy e.span k
    | some false => some .null

/-- `str` coercion point: `none` models the AttributeError of calling a
string method on a non-string. -/
def asStr : Json → Option String
  | .str s => some s
  | _ => none

/-- Dict coercion point: `none` models the AttributeError of `.items()`
on a non-dict. -/
def asObj : Json → Option (List (String × Json))
  | .obj kvs => some kvs
  | _ => none

/-- Python `float(x)` on a string: optional sign, digits with optional
fraction and exponent.  (`inf`/`nan` spellings are not modelled.) -/
def pyFloatStr (s : String) : Option ℚ :=
  let cs := (pyStrip s).toList
  let p := match cs with
    | '-' :: t => ((-1 : ℚ), t)
    | '+' :: t => ((1 : ℚ), t)
    | _ => ((1 : ℚ), cs)
  let ip := p.2.takeWhile Char.isDigit
  let rest1 := p.2.dropWhile Char.isDigit
  let fr := match rest1 with
    | '.' :: t => (t.takeWhile Char.isDigit, t.dropWhile Char.isDigit, true)
    | _ => ([], rest1, false)
  if ip.isEmpty && fr.1.isEmpty then none
  else
    let ex := match fr.2.1 with
      | 'e' :: t | 'E' :: t =>
        let q := match t with
          | '+' :: u => (false, u)
          | '-' :: u => (true, u)
          | _ => (false, t)
        (q.1, q.2.takeWhile Char.isDigit, q.2.dropWhile Char.isDigit, true)
      | _ => (false, [], fr.2.1, false)
    if ex.2.2.1 ≠ [] then none
    else if ex.2.2.2 && ex.2.1.isEmpty then none
    else
      let mant : ℚ := (digitsToNat (ip ++ fr.1) : ℚ) / ((10 : ℚ) ^ fr.1.length)
      let e10 : ℚ := (10 : ℚ) ^ digitsToNat ex.2.1
      some (p.1 * (if ex.1 then mant / e10 else mant * e10))

/-- Python `float(x)` on a JSON value. -/
def pyFloatOf : Json → Option ℚ
  | .num _ q => some q
  | .bool b => some (if b then 1 else 0)
  | .str s => pyFloatStr s
  | _ => none

/-! ### `stress_analyzer.py`: scenario-name recovery -/

/-- Characters matched by the regex class `[:\s]`. -/
def isSepChar (c : Char) : Bool :=
  c = ':' || c = ' ' || c = '\t' || c = '\n' || c = '\r' ||
  c = Char.ofNat 11 || c = Char.ofNat 12

/-- Characters matched by the regex class `[a-zA-Z0-9_-]`. -/
def isIdentChar (c : Char) : Bool :=
  c.isAlpha || c.isDigit || c = '_' || c = '-'

/-- The literal `scenario` of the extraction regex, lowercase. -/
def scenLit : List Char := ['s', 'c', 'e', 'n', 'a', 'r', 'i', 'o']

/-- Case-insensitive literal match, returning the rest of the input. -/
def stripCaseless : List Char → List Char → Option (List Char)
  | [], cs => some cs
  | _ :: _, [] => none
  | p :: ps, c :: cs => if c.toLower = p then stripCaseless ps cs else none

/-- Attempt the regex `scenario[:\s]+([a-zA-Z0-9_-]+)` (IGNORECASE) at one
position, returning the captured group.  The character classes are
disjoint, so greedy matching never needs to backtrack. -/
def tryScenMatch (cs : List Char) : Option String := do
  let r1 ← stripCaseless scenLit cs
  if (r1.takeWhile isSepChar).isEmpty then none
  else
    let r2 := r1.dropWhile isSepChar
    let ident := r2.takeWhile isIdentChar
    if ident.isEmpty then none else some (String.mk ident)

/-- `re.search`: try the pattern at each position left to right. -/
def searchScenGo : List Char → Option String
  | [] => none
  | c :: rest =>
    match tryScenMatch (c :: rest) with
    | some cap => some cap
    | none => searchScenGo rest

/-- Search a message for the scenario-extraction regex. -/
def searchScenario (s : String) : Option String :=
  searchScenGo s.toList

/-- `StressAnalyzer.extract_scenario_name`: structured field, then message
regex (guarded by a substring test), then target-based fallback.  Outer
`none` is a crash; inner `none` means no scenario name recovered.  All
recovered values are Python-truthy by construction. -/
def extractName (e : LogEntry) : Option (Option Json) := do
  let sc ← getFieldPy e "scenario"
  if truthy sc then some (some sc)
  else do
    let msg ← asStr e.message
    let fromMsg :=
      if strContains (pyLower msg) "scenario" then searchScenario msg else none
    match fromMsg with
    | some nm => some (some (.str nm))
    | none => do
      let tmem ← memIndexPy e.target "scenario"
      if tmem then do
        let nm ← getFieldPy e "name"
        some (some (if truthy nm then nm else .str "unknown"))
      else some none

/-! ### `stress_analyzer.py`: scenario analysis accumulation -/

/-- Mirror of `ScenarioAnalysis` (the trace-id set and event counter are
tracked by the source only for presentation; here only their crash
behaviour — hashability of added keys — is preserved). -/
structure SA where
  name : Json
  passed : Option Bool
  start_time : Option Json
  end_time : Option Json
  duration_ms : Option ℚ
  metrics : List (String × ℚ)
  assertions : List Bool
  errorsCount : ℕ
  warnCount : ℕ

/-- `ScenarioAnalysis(name)` followed by `start_time = entry.timestamp`. -/
def freshSA (v : Json) (ts : Json) : SA :=
  ⟨v, none, some ts, none, none, [], [], 0, 0⟩

/-- Python dict assignment on the metrics dict. -/
def setMetric : List (String × ℚ) → String → ℚ → List (String × ℚ)
  | [], k, v => [(k, v)]
  | (k0, v0) :: t, k, v =>
    if k0 = k then (k0, v) :: t else (k0, v0) :: setMetric t k v

/-- The `completed` block inside the per-entry update: on a completion
signal, record the numeric fields as metrics and any truthy duration. -/
def completedStep (a : SA) (e : LogEntry) (msg : String) : Option SA := do
  let isCompl ←
    (if strContains (pyLower msg) "completed" then some true
     else do
       let st ← getFieldPy e "status"
       some (jsonBeq st (.str "completed")))
  if isCompl then do
    let kvs ← asObj e.fields
    let a := { a with
      metrics := kvs.foldl (fun m kv =>
        match numVal kv.2 with
        | some q => setMetric m kv.1 q
        | none => m) a.metrics }
    let d1 ← getFieldPy e "duration_ms"
    let d ← (if truthy d1 then some d1 else getFieldPy e "duration")
    if truthy d then do
      let q ← pyFloatOf d
      some { a with duration_ms := some q }
    else some a
  else some a

/-- The assertion block inside the per-entry update: record the
assertion's outcome; a failing assertion sets the verdict to Fail, a
passing one upgrades only an Unknown verdict to Pass. -/
def assertStep (a : SA) (e : LogEntry) (msg : String) : Option SA := do
  let isAssert ←
    (if strContains (pyLower msg) "assertion" then some true
     else do
       let v ← getFieldPy e "assertion"
       some (truthy v))
  if isAssert then do
    let ap ←
      (if strContains (pyLower msg) "passed" then some true
       else do
         let v ← getFieldPy e "passed"
         some (jsonBeq v (.bool true)))
    let _ ← getFieldPy e "expected"
    let _ ← getFieldPy e "actual"
    let a := { a with assertions := a.assertions ++ [ap] }
    some (if !ap then { a with passed := some false }
          else if a.passed = none then { a with passed := some true }
          else a)
  else some a

/-- The per-entry update of the open `ScenarioAnalysis` (the body of the
`if scenario_analysis:` block of `analyze_entries`), in source line
order: end time, trace id, event type, error/warning counts, completion
metrics and duration, assertion tracking with the pass/fail rule.  `none`
models an uncaught exception. -/
def updateOpen (a : SA) (e : LogEntry) : Option SA := do
  let a := { a with end_time := some e.timestamp }
  let tid ← getFieldPy e "trace_id"
  let _ ← (if truthy tid then
             (if hashableJ tid then some () else none)
           else some ())
  let et1 ← getFieldPy e "event_type"
  let et ← (if truthy et1 then some et1 else getFieldPy e "event")
  let _ ← (if truthy et then
             (if hashableJ et then some () else none)
           else some ())
  let a :=
    if jsonBeq e.level (.str "ERROR") then { a with errorsCount := a.errorsCount + 1 }
    else if jsonBeq e.level (.str "WARN") then { a with warnCount := a.warnCount + 1 }
    else a
  let msg ← asStr e.message
  let a ← completedStep a e msg
  assertStep a e msg

/-! ### `stress_analyzer.py`: segmentation, thresholds, summary -/

/-- Scenario-dict keys: `current_scenario` is `None` before the first run
(and `None` is a valid, hashable Python dict key). -/
abbrev OKey := Option Json

/-- Python `==` on scenario-dict keys. -/
def keyBeq : OKey → OKey → Bool
  | none, none => true
  | some a, some b => jsonBeq a b
  | _, _ => false

/-- Hashability of a scenario-dict key (`None` is hashable). -/
def hashKey : OKey → Bool
  | none => true
  | some c => hashableJ c

/-- `self.scenarios[name].append(run)` on the `defaultdict(list)`. -/
def appendRun (scens : List (OKey × List SA)) (k : OKey) (sa : SA) :
    List (OKey × List SA) :=
  match scens with
  | [] => [(k, [sa])]
  | (k0, rs) :: t =>
    if keyBeq k0 k then (k0, rs ++ [sa]) :: t
    else (k0, rs) :: appendRun t k sa

/-- The run list recorded under a scenario key. -/
def runsFor (scens : List (OKey × List SA)) (k : OKey) : List SA :=
  match scens with
  | [] => []
  | (k0, rs) :: t => if keyBeq k0 k then rs else runsFor t k

/-- Close the open run into the scenario dict; `none` models the
TypeError of indexing the dict with an unhashable key. -/
def closeTo (scens : List (OKey × List SA)) (k : OKey) (sa : SA) :
    Option (List (OKey × List SA)) :=
  if hashKey k then some (appendRun scens k sa) else none

/-- The loop state of `StressAnalyzer.analyze_entries`. -/
structure AState where
  cur : OKey
  openRun : Option SA
  scenarios : List (OKey × List SA)

/-- Loop-entry state: no scenario open. -/
def initAState : AState := ⟨none, none, []⟩

/-- The scenario-switch part of one `analyze_entries` iteration: on a
(truthy) recovered name different from the current one, close the open
run into the scenario dict and open a fresh run. -/
def switchRun (st : AState) (e : LogEntry) : Option Json → Option AState
  | some v =>
    if truthy v && !keyBeq (some v) st.cur then do
      let scens ←
        match st.openRun with
        | some sa => closeTo st.scenarios st.cur sa
        | none => some st.scenarios
      some (AState.mk (some v) (some (freshSA v e.timestamp)) scens)
    else some st
  | none => some st

/-- The update part of one iteration: apply the per-entry update to the
open run, if any. -/
def runUpdate (st1 : AState) (e : LogEntry) : Option AState :=
  match st1.openRun with
  | none => some st1
  | some sa => do
    let sa' ← updateOpen sa e
    some { st1 with openRun := some sa' }

/-- One iteration of the `analyze_entries` loop: recover a scenario name,
switch runs if it differs from the current one, then update the open
run. -/
def stepA (st : AState) (e : LogEntry) : Option AState := do
  let nres ← extractName e
  let st1 ← switchRun st e nres
  runUpdate st1 e

/-- The `if scenario_analysis and current_scenario:` final close after the
loop. -/
def finishClose (st : AState) : Option (List (OKey × List SA)) :=
  match st.openRun with
  | some sa =>
    match st.cur with
    | some c =>
      if truthy c then closeTo st.scenarios (some c) sa else some st.scenarios
    | none => some st.scenarios
  | none => some st.scenarios

/-- The loop of `analyze_entries`. -/
def analyzeGo (st : AState) : List LogEntry → Option AState
  | [] => some st
  | e :: es => do
    let st' ← stepA st e
    analyzeGo st' es

/-- `StressAnalyzer.analyze_entries`: fold the entries and close any
still-open run, producing the scenario dict. -/
def analyzeEntries (es : List LogEntry) : Option (List (OKey × List SA)) := do
  let st ← analyzeGo initAState es
  finishClose st

/-- `StressAnalyzer.parse_log_file` over the lines of one file: strip,
skip blanks, decode, warn-and-continue on `JSONDecodeError`; any other
exception (a non-dict record) is caught by the file-level handler, which
stops the file and keeps the entries collected so far. -/
def stressParseGo : List String → List LogEntry × ℕ
  | [] => ([], 0)
  | l :: ls =>
    let t := pyStrip l
    if t = "" then stressParseGo ls
    else
      match parseJson t with
      | none =>
        let p := stressParseGo ls
        (p.1, p.2 + 1)
      | some j =>
        match mkLogEntry j with
        | none => ([], 0)
        | some e =>
          let p := stressParseGo ls
          (e :: p.1, p.2)

/-- One `{min, max}` bound pair of a stress threshold config. -/
structure Bounds where
  bmin : Option ℚ
  bmax : Option ℚ
deriving Repr, DecidableEq

/-- First-match lookup in a threshold config. -/
def lookupB : List (String × Bounds) → String → Option Bounds
  | [], _ => none
  | (k0, b) :: t, k => if k0 = k then some b else lookupB t k

/-- `ThresholdConfig.check_metric`: absent metric passes; a declared
`min` bound is checked first, then `max`. -/
def checkMetric (cfg : List (String × Bounds)) (name : String) (v : ℚ) : Bool :=
  match lookupB cfg name with
  | none => true
  | some b =>
    if (match b.bmin with
        | some m => decide (v < m)
        | none => false) then false
    else if (match b.bmax with
             | some M => decide (M < v)
             | none => false) then false
    else true

/-- The per-analysis body of `apply_thresholds`: collect threshold
failures over the recorded metrics; on any failure set the verdict to
Fail and append one failing assertion record. -/
def applyToAnalysis (cfg : List (String × Bounds)) (a : SA) : SA :=
  let fails := a.metrics.filter fun kv => !(checkMetric cfg kv.1 kv.2)
  if fails.isEmpty then a
  else { a with passed := some false, assertions := a.assertions ++ [false] }

/-- `StressAnalyzer.apply_thresholds` over the scenario dict (no-op
without a config). -/
def applyThresholds (cfgOpt : Option (List (String × Bounds)))
    (scens : List (OKey × List SA)) : List (OKey × List SA) :=
  match cfgOpt with
  | none => scens
  | some cfg => scens.map fun p => (p.1, p.2.map (applyToAnalysis cfg))

/-- All recorded runs, in scenario-dict order. -/
def runsList (scens : List (OKey × List SA)) : List SA :=
  (scens.map Prod.snd).flatten

/-- `generate_summary` totals. -/
def sTotal (scens : List (OKey × List SA)) : ℕ := (runsList scens).length

/-- Runs whose verdict is Pass. -/
def sPassed (scens : List (OKey × List SA)) : ℕ :=
  ((runsList scens).filter fun a => a.passed == some true).length

/-- Runs whose verdict is Fail. -/
def sFailed (scens : List (OKey × List SA)) : ℕ :=
  ((runsList scens).filter fun a => a.passed == some false).length

/-- `main`: `sys.exit(1 if summary['failed'] > 0 else 0)`. -/
def stressExitCode (scens : List (OKey × List SA)) : ℕ :=
  if 0 < sFailed scens then 1 else 0

/-! ### Claims -/

/-- The spec's nearest-rank percentile rule, stated in its own words:
sort ascending; index `floor(count * p / 100)` clamped to
`[0, count - 1]`; return the sample at that index. -/
def specNearestRank (l : List ℤ) (p : ℕ) : ℤ :=
  (List.insertionSort (· ≤ ·) l).getD (min (l.length * p / 100) (l.length - 1)) 0

/-- The synthetic sample set 1..100 of the spec's percentile test. -/
def oneToHundred : List ℤ := (List.range 100).map fun i => (i : ℤ) + 1

/-- C1: for every non-empty sample list, the p50/p95/p99 fields of
`calculate_stats` equal the ascending-sorted sample at index
`floor(count * p / 100)` clamped to `[0, count - 1]`; for samples 1..100,
p50 is the value at index 50 and p99 the value at index 99; for a
one-element sample list, p99 is that single element. -/
theorem C1_percentile_nearest_rank :
    (∀ l : List ℤ, l ≠ [] →
      (calculateStats l).p50_us = specNearestRank l 50 ∧
      (calculateStats l).p95_us = specNearestRank l 95 ∧
      (calculateStats l).p99_us = specNearestRank l 99) ∧
    ((calculateStats oneToHundred).p50_us = oneToHundred.getD 50 0 ∧
     (calculateStats oneToHundred).p99_us = oneToHundred.getD 99 0) ∧
    (∀ x : ℤ, (calculateStats [x]).p99_us = x) := by
  refine ⟨fun l hl => ?_, ⟨by decide, by decide⟩,
    fun x => by simp [calculateStats, List.insertionSort, List.orderedInsert]⟩
  have hne : l.isEmpty = false := by simpa using hl
  refine ⟨?_, ?_, ?_⟩ <;>
    simp [calculateStats, specNearestRank, hne, List.length_insertionSort]

/-- Witness for C1 at the concrete sample list `[5, 3]`. -/
theorem C1_percentile_nearest_rank_witness :
    ([(5 : ℤ), 3] ≠ []) ∧
      (calculateStats [(5 : ℤ), 3]).p99_us = specNearestRank [(5 : ℤ), 3] 99 :=
  ⟨by decide, (C1_percentile_nearest_rank.1 [5, 3] (by decide)).2.2⟩

/-- A log entry whose payload restates one cumulative counter. -/
def restateEntry (k : String) (v : ℚ) : Json :=
  .obj [("fields", .obj [(k, qnum v)])]

/-- Pointwise order on every success/failure/invite counter of the
analyzer state. -/
def countersLe (s s' : PQState) : Prop :=
  s.sign.successes ≤ s'.sign.successes ∧
  s.sign.failures ≤ s'.sign.failures ∧
  s.verify.successes ≤ s'.verify.successes ∧
  s.verify.failures ≤ s'.verify.failures ∧
  s.kem_encap.successes ≤ s'.kem_encap.successes ∧
  s.kem_encap.failures ≤ s'.kem_encap.failures ∧
  s.kem_decap.successes ≤ s'.kem_decap.successes ∧
  s.kem_decap.failures ≤ s'.kem_decap.failures ∧
  s.invites_created ≤ s'.invites_created ∧
  s.invites_accepted ≤ s'.invites_accepted ∧
  s.invites_failed ≤ s'.invites_failed

theorem countersLe_refl (s : PQState) : countersLe s s := by
  unfold countersLe; and_intros <;> exact le_rfl

theorem countersLe_trans {a b c : PQState}
    (h1 : countersLe a b) (h2 : countersLe b c) : countersLe a c := by
  unfold countersLe at h1 h2 ⊢
  obtain ⟨a1, a2, a3, a4, a5, a6, a7, a8, a9, a10, a11⟩ := h1
  obtain ⟨b1, b2, b3, b4, b5, b6, b7, b8, b9, b10, b11⟩ := h2
  exact ⟨a1.trans b1, a2.trans b2, a3.trans b3, a4.trans b4, a5.trans b5,
    a6.trans b6, a7.trans b7, a8.trans b8, a9.trans b9, a10.trans b10,
    a11.trans b11⟩

theorem maxCounter_le {fields : Json} {k : String} {cur r : ℚ}
    (h : maxCounter fields k cur = some r) : cur ≤ r := by
  unfold maxCounter at h
  split at h
  · exact Option.noConfusion h
  · exact le_of_eq (Option.some.inj h)
  · split at h
    · rename_i kvs heq
      rcases hq : numVal (jgetD kvs k (intJ 0)) with _ | q
      all_goals rw [hq] at h
      · exact Option.noConfusion h
      · exact (Option.some.inj h) ▸ le_max_left cur q
    · exact Option.noConfusion h

theorem bindSome {α β : Type} {o : Option α} {f : α → Option β} {b : β}
    (h : o >>= f = some b) : ∃ a, o = some a ∧ f a = some b := by
  cases o with
  | none => exact Option.noConfusion h
  | some a => exact ⟨a, rfl, h⟩

theorem scenarioStage_counters {s : PQState} {ekvs : List (String × Json)}
    {fields : Json} {s' : PQState}
    (h : scenarioStage s ekvs fields = some s') : countersLe s s' := by
  unfold scenarioStage at h
  split at h
  · cases h
    unfold countersLe; and_intros <;> exact le_rfl
  · split at h
    · exact Option.noConfusion h
    · obtain ⟨v, hv, h⟩ := bindSome h
      cases h
      unfold countersLe; and_intros <;> exact le_rfl
    · cases h
      exact countersLe_refl s

theorem traceStage_counters {s : PQState} {ekvs : List (String × Json)}
    {fields : Json} {s' : PQState}
    (h : traceStage s ekvs fields = some s') : countersLe s s' := by
  unfold traceStage at h
  split at h
  · obtain ⟨t, ht, h⟩ := bindSome h
    cases h
    unfold countersLe; and_intros <;> exact le_rfl
  · split at h
    · exact Option.noConfusion h
    · obtain ⟨v, hv, h⟩ := bindSome h
      obtain ⟨t, ht, h⟩ := bindSome h
      cases h
      unfold countersLe; and_intros <;> exact le_rfl
    · cases h
      exact countersLe_refl s

theorem synthSamples_counters {om : OperationMetrics} {cj aj : Json} {c : ℚ}
    {om' : OperationMetrics} (h : synthSamples om cj aj c = some om') :
    om.successes ≤ om'.successes ∧ om.failures ≤ om'.failures := by
  unfold synthSamples at h
  obtain ⟨m, hm, h⟩ := bindSome h
  obtain ⟨av, hav, h⟩ := bindSome h
  cases h
  exact ⟨le_max_left _ _, le_rfl⟩

theorem operationStage_counters {s : PQState} {fields : Json} {s' : PQState}
    (h : operationStage s fields = some s') : countersLe s s' := by
  unfold operationStage at h
  split at h
  · exact Option.noConfusion h
  · cases h
    exact countersLe_refl s
  · obtain ⟨op, hop, h⟩ := bindSome h
    split at h
    · obtain ⟨c, hc, h⟩ := bindSome h
      split at h
      · obtain ⟨om, hom, h⟩ := bindSome h
        cases h
        have hs := synthSamples_counters hom
        unfold countersLe; and_intros <;> first
          | exact hs.1
          | exact hs.2
          | exact le_rfl
      · cases h
        exact countersLe_refl s
    · split at h
      · obtain ⟨c, hc, h⟩ := bindSome h
        split at h
        · obtain ⟨om, hom, h⟩ := bindSome h
          cases h
          have hs := synthSamples_counters hom
          unfold countersLe; and_intros <;> first
            | exact hs.1
            | exact hs.2
            | exact le_rfl
        · cases h
          exact countersLe_refl s
      · split at h
        · obtain ⟨c, hc, h⟩ := bindSome h
          split at h
          · obtain ⟨om, hom, h⟩ := bindSome h
            cases h
            have hs := synthSamples_counters hom
            unfold countersLe; and_intros <;> first
              | exact hs.1
              | exact hs.2
              | exact le_rfl
          · cases h
            exact countersLe_refl s
        · split at h
          · obtain ⟨c, hc, h⟩ := bindSome h
            split at h
            · obtain ⟨om, hom, h⟩ := bindSome h
              cases h
              have hs := synthSamples_counters hom
              unfold countersLe; and_intros <;> first
                | exact hs.1
                | exact hs.2
                | exact le_rfl
            · cases h
              exact countersLe_refl s
          · cases h
            exact countersLe_refl s

theorem completionStage_counters {s : PQState} {fields : Json} {s' : PQState}
    (h : completionStage s fields = some s') : countersLe s s' := by
  unfold completionStage at h
  obtain ⟨v1, h1, h⟩ := bindSome h
  obtain ⟨v2, h2, h⟩ := bindSome h
  obtain ⟨v3, h3, h⟩ := bindSome h
  obtain ⟨v4, h4, h⟩ := bindSome h
  obtain ⟨v5, h5, h⟩ := bindSome h
  obtain ⟨v6, h6, h⟩ := bindSome h
  cases h
  unfold countersLe; and_intros <;> first
    | exact maxCounter_le h1
    | exact maxCounter_le h2
    | exact maxCounter_le h3
    | exact maxCounter_le h4
    | exact maxCounter_le h5
    | exact maxCounter_le h6
    | exact le_rfl

theorem inviteStage_counters {s : PQState} {fields : Json} {s' : PQState}
    (h : inviteStage s fields = some s') : countersLe s s' := by
  unfold inviteStage at h
  obtain ⟨v1, h1, h⟩ := bindSome h
  obtain ⟨v2, h2, h⟩ := bindSome h
  obtain ⟨v3, h3, h⟩ := bindSome h
  cases h
  unfold countersLe; and_intros <;> first
    | exact maxCounter_le h1
    | exact maxCounter_le h2
    | exact maxCounter_le h3
    | exact le_rfl

theorem avgSample_counters {fields : Json} {k : String} {om om' : OperationMetrics}
    (h : avgSample fields k om = some om') :
    om.successes = om'.successes ∧ om.failures = om'.failures := by
  unfold avgSample at h
  split at h
  · exact Option.noConfusion h
  · cases h
    exact ⟨rfl, rfl⟩
  · split at h
    · obtain ⟨v, hv, h⟩ := bindSome h
      obtain ⟨q, hq, h⟩ := bindSome h
      split at h
      · cases h
        exact ⟨rfl, rfl⟩
      · cases h
        exact ⟨rfl, rfl⟩
    · cases h
      exact ⟨rfl, rfl⟩

theorem avgStage_counters {s : PQState} {fields : Json} {s' : PQState}
    (h : avgStage s fields = some s') : countersLe s s' := by
  unfold avgStage at h
  obtain ⟨o1, h1, h⟩ := bindSome h
  obtain ⟨o2, h2, h⟩ := bindSome h
  obtain ⟨o3, h3, h⟩ := bindSome h
  obtain ⟨o4, h4, h⟩ := bindSome h
  cases h
  unfold countersLe; and_intros <;> first
    | exact le_of_eq (avgSample_counters h1).1
    | exact le_of_eq (avgSample_counters h1).2
    | exact le_of_eq (avgSample_counters h2).1
    | exact le_of_eq (avgSample_counters h2).2
    | exact le_of_eq (avgSample_counters h3).1
    | exact le_of_eq (avgSample_counters h3).2
    | exact le_of_eq (avgSample_counters h4).1
    | exact le_of_eq (avgSample_counters h4).2
    | exact le_rfl

theorem processEntry_counters {s : PQState} {e : Json} {s' : PQState}
    (h : processEntry s e = some s') : countersLe s s' := by
  unfold processEntry at h
  split at h
  · obtain ⟨s1, h1, h⟩ := bindSome h
    obtain ⟨s2, h2, h⟩ := bindSome h
    obtain ⟨s3, h3, h⟩ := bindSome h
    obtain ⟨s4, h4, h⟩ := bindSome h
    obtain ⟨s5, h5, h⟩ := bindSome h
    exact countersLe_trans (scenarioStage_counters h1)
      (countersLe_trans (traceStage_counters h2)
        (countersLe_trans (operationStage_counters h3)
          (countersLe_trans (completionStage_counters h4)
            (countersLe_trans (inviteStage_counters h5) (avgStage_counters h)))))
  · exact Option.noConfusion h

theorem pqProcessAll_counters {es : List Json} {s s' : PQState}
    (h : pqProcessAll s es = some s') : countersLe s s' := by
  induction es generalizing s with
  | nil =>
    unfold pqProcessAll at h
    cases h
    exact countersLe_refl s'
  | cons e es ih =>
    unfold pqProcessAll at h
    obtain ⟨s1, h1, h⟩ := bindSome h
    exact countersLe_trans (processEntry_counters h1) (ih h)

/-- C2: every success/failure (and invite) counter is updated with
max-of-old-and-new semantics — processing an entry restating a cumulative
total `v` stores exactly `max(previous, v)`, so a lower restatement leaves
the counter unchanged and a higher one replaces it — and counters are
non-decreasing across processing of any entry and any entry stream. -/
theorem C2_counter_max_monotone :
    (∀ (s : PQState) (v : ℚ),
      processEntry s (restateEntry "total_signatures_created" v) =
        some { s with sign := { s.sign with successes := max s.sign.successes v } } ∧
      processEntry s (restateEntry "total_signatures_verified" v) =
        some { s with verify := { s.verify with successes := max s.verify.successes v } } ∧
      processEntry s (restateEntry "signature_failures" v) =
        some { s with verify := { s.verify with failures := max s.verify.failures v } } ∧
      processEntry s (restateEntry "total_kem_encapsulations" v) =
        some { s with kem_encap := { s.kem_encap with successes := max s.kem_encap.successes v } } ∧
      processEntry s (restateEntry "total_kem_decapsulations" v) =
        some { s with kem_decap := { s.kem_decap with successes := max s.kem_decap.successes v } } ∧
      processEntry s (restateEntry "kem_failures" v) =
        some { s with kem_decap := { s.kem_decap with failures := max s.kem_decap.failures v } } ∧
      processEntry s (restateEntry "invites_created" v) =
        some { s with invites_created := max s.invites_created v } ∧
      processEntry s (restateEntry "invites_accepted" v) =
        some { s with invites_accepted := max s.invites_accepted v } ∧
      processEntry s (restateEntry "invites_failed" v) =
        some { s with invites_failed := max s.invites_failed v }) ∧
    (∀ (s : PQState) (e : Json) (s' : PQState),
      processEntry s e = some s' → countersLe s s') ∧
    (∀ (s : PQState) (es : List Json) (s' : PQState),
      pqProcessAll s es = some s' → countersLe s s') :=
  ⟨fun _ _ => ⟨rfl, rfl, rfl, rfl, rfl, rfl, rfl, rfl, rfl⟩,
   fun _ _ _ h => processEntry_counters h,
   fun _ _ _ h => pqProcessAll_counters h⟩

def c2wState : PQState :=
  (processEntry initPQState (restateEntry "invites_created" 7)).getD initPQState

/-- Witness for C2: a concrete entry restating `invites_created = 7`
processed from the initial state. -/
theorem C2_counter_max_monotone_witness :
    processEntry initPQState (restateEntry "invites_created" 7) = some c2wState ∧
      countersLe initPQState c2wState :=
  ⟨rfl, C2_counter_max_monotone.2.1 initPQState
    (restateEntry "invites_created" 7) c2wState rfl⟩

theorem completedStep_passed {a : SA} {e : LogEntry} {msg : String} {a' : SA}
    (h : completedStep a e msg = some a') : a'.passed = a.passed := by
  unfold completedStep at h
  obtain ⟨isCompl, hic, h⟩ := bindSome h
  split at h
  · obtain ⟨kvs, hkvs, h⟩ := bindSome h
    obtain ⟨d1, hd1, h⟩ := bindSome h
    obtain ⟨d, hd, h⟩ := bindSome h
    split at h
    · obtain ⟨q, hq, h⟩ := bindSome h
      cases h
      rfl
    · cases h
      rfl
  · cases h
    rfl

theorem assertStep_passed_false {a : SA} {e : LogEntry} {msg : String} {a' : SA}
    (hp : a.passed = some false) (h : assertStep a e msg = some a') :
    a'.passed = some false := by
  unfold assertStep at h
  obtain ⟨isAssert, hia, h⟩ := bindSome h
  split at h
  · obtain ⟨ap, hap, h⟩ := bindSome h
    obtain ⟨x1, hx1, h⟩ := bindSome h
    obtain ⟨x2, hx2, h⟩ := bindSome h
    cases h
    split
    · rfl
    · split
      · rename_i hnone
        rw [hp] at hnone
        exact Option.noConfusion hnone
      · exact hp
  · cases h
    exact hp

theorem updateOpen_passed_false {a : SA} {e : LogEntry} {a' : SA}
    (hp : a.passed = some false) (h : updateOpen a e = some a') :
    a'.passed = some false := by
  unfold updateOpen at h
  obtain ⟨tid, htid, h⟩ := bindSome h
  obtain ⟨u1, hu1, h⟩ := bindSome h
  obtain ⟨et1, het1, h⟩ := bindSome h
  obtain ⟨et, het, h⟩ := bindSome h
  obtain ⟨u2, hu2, h⟩ := bindSome h
  obtain ⟨msg, hmsg, h⟩ := bindSome h
  obtain ⟨a2, ha2, h⟩ := bindSome h
  have hp2 : a2.passed = some false := by
    rw [completedStep_passed ha2]
    split
    · exact hp
    · split <;> exact hp
  exact assertStep_passed_false hp2 h

theorem applyToAnalysis_passed_false (cfg : List (String × Bounds)) (a : SA)
    (hp : a.passed = some false) : (applyToAnalysis cfg a).passed = some false := by
  unfold applyToAnalysis
  simp only []
  split
  · exact hp
  · rfl

/-- C4: within a run, the Fail verdict is absorbing — once `passed` is
`False`, neither processing any further entry (in particular a passing
assertion) nor applying threshold checks ever changes it. -/
theorem C4_verdict_fail_absorbing :
    (∀ (a : SA) (e : LogEntry) (a' : SA),
        a.passed = some false → updateOpen a e = some a' → a'.passed = some false) ∧
    (∀ (cfg : List (String × Bounds)) (a : SA),
        a.passed = some false → (applyToAnalysis cfg a).passed = some false) :=
  ⟨fun _ _ _ hp h => updateOpen_passed_false hp h,
   fun cfg a hp => applyToAnalysis_passed_false cfg a hp⟩

/-- A failed run, used as concrete input for the C4 witness. -/
def c4Analysis : SA := { freshSA (.str "A") (.str "t0") with passed := some false }

/-- An entry carrying a passing assertion, for the C4 witness. -/
def c4Entry : LogEntry :=
  (mkLogEntry (.obj [("timestamp", .str "t1"),
    ("message", .str "assertion passed ok"),
    ("fields", .obj [])])).getD ⟨.null, .null, .null, .null, .null, .null⟩

/-- The state after the C4 witness update. -/
def c4After : SA := (updateOpen c4Analysis c4Entry).getD c4Analysis

/-- Witness for C4: a failed run stays failed through a concrete passing
assertion and through threshold application. -/
theorem C4_verdict_fail_absorbing_witness :
    c4Analysis.passed = some false ∧
    updateOpen c4Analysis c4Entry = some c4After ∧
    c4After.passed = some false ∧
    (applyToAnalysis [] c4Analysis).passed = some false :=
  ⟨rfl, rfl, C4_verdict_fail_absorbing.1 c4Analysis c4Entry c4After rfl rfl,
   C4_verdict_fail_absorbing.2 [] c4Analysis rfl⟩

theorem sTotal_appendRun (scens : List (OKey × List SA)) (k : OKey) (sa : SA) :
    sTotal (appendRun scens k sa) = sTotal scens + 1 := by
  induction scens with
  | nil => rfl
  | cons p t ih =>
    obtain ⟨k0, rs⟩ := p
    unfold appendRun
    split
    · simp [sTotal, runsList]
      omega
    · simp only [sTotal, runsList, List.map_cons, List.flatten_cons,
        List.length_append] at ih ⊢
      omega

theorem runUpdate_shape {st1 : AState} {e : LogEntry} {st' : AState}
    (h : runUpdate st1 e = some st') :
    st'.cur = st1.cur ∧ st'.scenarios = st1.scenarios ∧
      st'.openRun.isSome = st1.openRun.isSome := by
  unfold runUpdate at h
  cases hop : st1.openRun with
  | none =>
    rw [hop] at h
    cases h
    exact ⟨rfl, rfl, by rw [hop]⟩
  | some sa =>
    rw [hop] at h
    obtain ⟨sa', hsa', h⟩ := bindSome h
    cases h
    exact ⟨rfl, rfl, rfl⟩

theorem stepA_characterization :
    ∀ (st : AState) (e : LogEntry) (st' : AState), stepA st e = some st' →
      (∀ v, extractName e = some (some v) → truthy v = true →
          keyBeq (some v) st.cur = false →
        st'.cur = some v ∧ st'.openRun.isSome = true ∧
        sTotal st'.scenarios =
          sTotal st.scenarios + (if st.openRun.isSome then 1 else 0)) ∧
      ((extractName e = some none ∨
        (∃ v, extractName e = some (some v) ∧
          (truthy v = false ∨ keyBeq (some v) st.cur = true))) →
        st'.cur = st.cur ∧ st'.scenarios = st.scenarios ∧
        st'.openRun.isSome = st.openRun.isSome) := by
  intro st e st' h
  unfold stepA at h
  obtain ⟨nres, hnres, h⟩ := bindSome h
  obtain ⟨st1, hst1, h⟩ := bindSome h
  obtain ⟨hc, hs, ho⟩ := runUpdate_shape h
  constructor
  · intro v hv htr hkb
    have : nres = some v := Option.some.inj (hnres.symm.trans hv)
    subst this
    simp only [switchRun] at hst1
    rw [htr, hkb] at hst1
    simp only [Bool.not_false, Bool.and_self, if_true] at hst1
    cases hop : st.openRun with
    | none =>
      rw [hop] at hst1
      obtain ⟨sc, hsc, hst1⟩ := bindSome hst1
      cases hsc
      cases hst1
      refine ⟨?_, ?_, ?_⟩
      · rw [hc]
      · simp [ho]
      · simp [hs, hop]
    | some sa =>
      rw [hop] at hst1
      obtain ⟨sc, hsc, hst1⟩ := bindSome hst1
      unfold closeTo at hsc
      split at hsc
      · cases hsc
        cases hst1
        refine ⟨?_, ?_, ?_⟩
        · rw [hc]
        · simp [ho]
        · simp [hs, hop, sTotal_appendRun]
      · exact Option.noConfusion hsc
  · intro hcase
    have hsame : st1 = st := by
      rcases hcase with hnone | ⟨v, hv, hvc⟩
      · have : nres = none := Option.some.inj (hnres.symm.trans hnone)
        subst this
        simp only [switchRun] at hst1
        exact (Option.some.inj hst1).symm
      · have : nres = some v := Option.some.inj (hnres.symm.trans hv)
        subst this
        simp only [switchRun] at hst1
        rcases hvc with htr | hkb
        · rw [htr] at hst1
          simp only [Bool.false_and, if_false] at hst1
          exact (Option.some.inj hst1).symm
        · rw [hkb] at hst1
          simp only [Bool.not_true, Bool.and_false, if_false] at hst1
          exact (Option.some.inj hst1).symm
    subst hsame
    exact ⟨hc, hs, ho⟩

theorem stepA_switch {st : AState} {e : LogEntry} {st' : AState} {v : Json}
    (hv : extractName e = some (some v)) (htr : truthy v = true)
    (hkb : keyBeq (some v) st.cur = false) (h : stepA st e = some st') :
    ∃ sa' scens2, st' = AState.mk (some v) (some sa') scens2 ∧
      ((st.openRun = none ∧ scens2 = st.scenarios) ∨
       (∃ sa, st.openRun = some sa ∧ hashKey st.cur = true ∧
         scens2 = appendRun st.scenarios st.cur sa)) := by
  unfold stepA at h
  obtain ⟨nres, hnres, h⟩ := bindSome h
  obtain ⟨st1, hst1, h⟩ := bindSome h
  have : nres = some v := Option.some.inj (hnres.symm.trans hv)
  subst this
  simp only [switchRun] at hst1
  rw [htr, hkb] at hst1
  simp only [Bool.not_false, Bool.and_self, if_true] at hst1
  cases hop : st.openRun with
  | none =>
    rw [hop] at hst1
    obtain ⟨sc, hsc, hst1⟩ := bindSome hst1
    cases hsc
    cases hst1
    unfold runUpdate at h
    obtain ⟨sa', hsa', h⟩ := bindSome h
    cases h
    exact ⟨sa', st.scenarios, rfl, Or.inl ⟨rfl, rfl⟩⟩
  | some sa =>
    rw [hop] at hst1
    obtain ⟨sc, hsc, hst1⟩ := bindSome hst1
    unfold closeTo at hsc
    split at hsc
    · rename_i hhash
      cases hsc
      cases hst1
      unfold runUpdate at h
      obtain ⟨sa', hsa', h⟩ := bindSome h
      cases h
      exact ⟨sa', _, rfl, Or.inr ⟨sa, rfl, hhash, rfl⟩⟩
    · exact Option.noConfusion hsc

theorem keyBeq_refl_some (v : Json) : keyBeq (some v) (some v) = true := by
  simp [keyBeq, jsonBeq_refl]

theorem analyzeEntries_AABA :
    ∀ (e1 e2 e3 e4 : LogEntry) (A B : Json) (scens : List (OKey × List SA)),
      extractName e1 = some (some A) →
      extractName e2 = some (some A) →
      extractName e3 = some (some B) →
      extractName e4 = some (some A) →
      truthy A = true → truthy B = true →
      jsonBeq A B = false → jsonBeq B A = false →
      analyzeEntries [e1, e2, e3, e4] = some scens →
      (runsFor scens (some A)).length = 2 ∧
      (runsFor scens (some B)).length = 1 ∧
      sTotal scens = 3 ∧ scens.map Prod.fst = [some A, some B] := by
  intro e1 e2 e3 e4 A B scens h1 h2 h3 h4 tA tB hAB hBA hrun
  unfold analyzeEntries at hrun
  obtain ⟨stF, hgo, hfin⟩ := bindSome hrun
  simp only [analyzeGo] at hgo
  obtain ⟨st1, hs1, hgo⟩ := bindSome hgo
  obtain ⟨st2, hs2, hgo⟩ := bindSome hgo
  obtain ⟨st3, hs3, hgo⟩ := bindSome hgo
  obtain ⟨st4, hs4, hgo⟩ := bindSome hgo
  have hF : st4 = stF := Option.some.inj hgo
  subst hF
  -- step 1: open the first A-run
  obtain ⟨sa1, sc1, hst1, hd1⟩ := stepA_switch h1 tA (by rfl) hs1
  subst hst1
  have hsc1 : sc1 = [] := by
    rcases hd1 with ⟨-, h⟩ | ⟨sa, hx, -, -⟩
    · exact h
    · exact Option.noConfusion hx
  subst hsc1
  -- step 2: same name, no switch
  have hstay := (stepA_characterization _ e2 _ hs2).2
    (Or.inr ⟨A, h2, Or.inr (keyBeq_refl_some A)⟩)
  obtain ⟨hc2, hsc2, ho2⟩ := hstay
  -- step 3: switch to B, closing the first A-run
  have hkb3 : keyBeq (some B) st2.cur = false := by
    rw [hc2]; exact hBA ▸ rfl
  obtain ⟨sa3, sc3, hst3, hd3⟩ := stepA_switch h3 tB hkb3 hs3
  subst hst3
  obtain ⟨sa2, hsa2⟩ := Option.isSome_iff_exists.mp (by rw [ho2]; rfl)
  have hsc3 : sc3 = [(some A, [sa2])] := by
    rcases hd3 with ⟨hx, -⟩ | ⟨sa, hx, -, hsc⟩
    · rw [hsa2] at hx; exact Option.noConfusion hx
    · rw [hsa2] at hx
      cases Option.some.inj hx
      rw [hsc, hsc2, hc2]
      rfl
  have hhashA : hashKey st2.cur = true := by
    rcases hd3 with ⟨hx, -⟩ | ⟨sa, hx, hh, -⟩
    · rw [hsa2] at hx; exact Option.noConfusion hx
    · exact hh
  rw [hc2] at hhashA
  subst hsc3
  -- step 4: switch back to A, closing the B-run
  have hkb4 : keyBeq (some A) (AState.mk (some B) (some sa3) [(some A, [sa2])]).cur = false := by
    exact hAB ▸ rfl
  obtain ⟨sa4, sc4, hst4, hd4⟩ := stepA_switch h4 tA hkb4 hs4
  subst hst4
  have hsc4 : sc4 = [(some A, [sa2]), (some B, [sa3])] := by
    rcases hd4 with ⟨hx, -⟩ | ⟨sa, hx, -, hsc⟩
    · exact Option.noConfusion hx
    · cases Option.some.inj hx
      rw [hsc]
      simp [appendRun, keyBeq, hAB]
  subst hsc4
  -- final close of the trailing A-run
  simp only [finishClose] at hfin
  rw [tA] at hfin
  unfold closeTo at hfin
  rw [hhashA] at hfin
  have hscens : scens = [(some A, [sa2, sa4]), (some B, [sa3])] := by
    have := Option.some.inj hfin
    rw [← this]
    simp [appendRun, keyBeq, jsonBeq_refl]
  subst hscens
  refine ⟨?_, ?_, ?_, rfl⟩
  · simp [runsFor, keyBeq, jsonBeq_refl]
  · simp [runsFor, keyBeq, jsonBeq_refl, hAB]
  · simp [sTotal, runsList]

/-- C3: a stream whose recovered scenario names are `[A, A, B, A]` (with
`A` and `B` distinct truthy names) yields exactly three runs — two
recorded under `A`, one under `B` — and, in general, one loop step closes
the open run and opens a new one exactly when the entry's recovered name
is truthy and differs from the currently open run's name (a still-open
run is closed by the end-of-stream finalization inside
`analyzeEntries`). -/
theorem C3_segmentation_multiplicity :
    (∀ (e1 e2 e3 e4 : LogEntry) (A B : Json) (scens : List (OKey × List SA)),
      extractName e1 = some (some A) →
      extractName e2 = some (some A) →
      extractName e3 = some (some B) →
      extractName e4 = some (some A) →
      truthy A = true → truthy B = true →
      jsonBeq A B = false → jsonBeq B A = false →
      analyzeEntries [e1, e2, e3, e4] = some scens →
      (runsFor scens (some A)).length = 2 ∧
      (runsFor scens (some B)).length = 1 ∧
      sTotal scens = 3 ∧ scens.map Prod.fst = [some A, some B]) ∧
    (∀ (st : AState) (e : LogEntry) (st' : AState), stepA st e = some st' →
      (∀ v, extractName e = some (some v) → truthy v = true →
          keyBeq (some v) st.cur = false →
        st'.cur = some v ∧ st'.openRun.isSome = true ∧
        sTotal st'.scenarios =
          sTotal st.scenarios + (if st.openRun.isSome then 1 else 0)) ∧
      ((extractName e = some none ∨
        (∃ v, extractName e = some (some v) ∧
          (truthy v = false ∨ keyBeq (some v) st.cur = true))) →
        st'.cur = st.cur ∧ st'.scenarios = st.scenarios ∧
        st'.openRun.isSome = st.openRun.isSome)) :=
  ⟨analyzeEntries_AABA, stepA_characterization⟩

/-- A concrete entry declaring a scenario name, for the C3 witness. -/
def c3e (nm : String) (ts : String) : LogEntry :=
  (mkLogEntry (.obj [("timestamp", .str ts), ("message", .str "run"),
    ("fields", .obj [("scenario", .str nm)])])).getD
    ⟨.null, .null, .null, .null, .null, .null⟩

/-- The concrete `[A, A, B, A]` stream of the C3 witness. -/
def c3Entries : List LogEntry :=
  [c3e "A" "t1", c3e "A" "t2", c3e "B" "t3", c3e "A" "t4"]

/-- The scenario dict the C3 witness stream produces. -/
def c3Scens : List (OKey × List SA) := (analyzeEntries c3Entries).getD []

/-- Witness for C3 on the concrete `[A, A, B, A]` stream. -/
theorem C3_segmentation_multiplicity_witness :
    analyzeEntries c3Entries = some c3Scens ∧
    (runsFor c3Scens (some (.str "A"))).length = 2 ∧
    (runsFor c3Scens (some (.str "B"))).length = 1 ∧
    sTotal c3Scens = 3 := by
  refine ⟨rfl, ?_, ?_, ?_⟩ <;>
  · have h := C3_segmentation_multiplicity.1 (c3e "A" "t1") (c3e "A" "t2")
      (c3e "B" "t3") (c3e "A" "t4") (.str "A") (.str "B") c3Scens
      rfl rfl rfl rfl (by decide) (by decide) (by decide) (by decide) rfl
    first
      | exact h.1
      | exact h.2.1
      | exact h.2.2.1

/-- The analyzer state after one entry reporting 100 created signatures,
for C5. -/
def c5State : PQState :=
  (processEntry initPQState
    (restateEntry "total_signatures_created" 100)).getD initPQState

/-- C5 (code bug): the default policy declares
`signature.failure_rate_max = 0.01` and the report computes the signature
total (`sign_total`), yet `generate_report` never emits a
`signature_failure_rate` check, even with a positive signature total —
contrary to "every declared bound yields exactly one evaluated check". -/
theorem C5_signature_failure_rate_never_checked :
    processEntry initPQState (restateEntry "total_signatures_created" 100) =
      some c5State ∧
    (0 : ℚ) < signTotal c5State ∧
    (defaultThresholds.signature.getD emptyCat).failure_rate_max = some (1/100) ∧
    ((generateReport defaultThresholds c5State).checks.filter
      (fun c => c.metric == "signature_failure_rate")) = [] := by
  refine ⟨rfl, by with_unfolding_all decide, rfl, by with_unfolding_all decide⟩

/-- C10 counterexample: with no evidence at all (the freshly initialized
analyzer), the report is not "pass" with zero checks — it is "fail" with
eight checks. -/
theorem C10_counterexample :
    ¬((generateReport defaultThresholds initPQState).status = "pass" ∧
      (generateReport defaultThresholds initPQState).checks.length = 0) ∧
    (generateReport defaultThresholds initPQState).status = "fail" := by
  with_unfolding_all decide

/-- C10 (amended): on the empty-evidence state the default policy still
emits all eight latency/throughput checks — the four throughput minimums
fail on zero throughput, so the status is "fail" — while no rate check is
emitted, the invite success rate is reported as 1.0 and
`total_pq_operations` as 0. -/
theorem C10_empty_evidence_report :
    (generateReport defaultThresholds initPQState).status = "fail" ∧
    (generateReport defaultThresholds initPQState).checks.map
        (fun c => (c.metric, c.passed)) =
      [("signature_latency_p99_us", true), ("signature_throughput", false),
       ("verification_latency_p99_us", true), ("verification_throughput", false),
       ("kem_encap_latency_p99_us", true), ("kem_encap_throughput", false),
       ("kem_decap_latency_p99_us", true), ("kem_decap_throughput", false)] ∧
    (generateReport defaultThresholds initPQState).inviteSuccessRate = 1 ∧
    (generateReport defaultThresholds initPQState).totalPQOperations = 0 := by
  with_unfolding_all decide

theorem sFailed_eq_zero_iff (scens : List (OKey × List SA)) :
    sFailed scens = 0 ↔
      (runsList scens).all (fun a => !(a.passed == some false)) = true := by
  unfold sFailed
  rw [List.length_eq_zero, List.filter_eq_nil_iff, List.all_eq_true]
  simp

theorem stressExit_iff (scens : List (OKey × List SA)) :
    stressExitCode scens = 0 ↔ sFailed scens = 0 := by
  unfold stressExitCode
  split
  · rename_i h
    constructor
    · intro h1
      exact absurd h1 one_ne_zero
    · intro h0
      omega
  · rename_i h
    constructor
    · intro _
      omega
    · intro _
      rfl

/-- C6 (amended): the pq report status is "pass" exactly when every
emitted threshold check passed; the stress analyzer's exit code is 0
exactly when no run's verdict is Fail — runs left with an Unknown verdict
do not cause a failing exit (the claim's "exit 0 iff every run's verdict
is Pass" is refuted by `C6_overall_verdict_counterexample`). -/
theorem C6_overall_verdict :
    (∀ (t : Thresholds) (s : PQState),
        ((generateReport t s).status = "pass" ↔
          (generateReport t s).checks.all (fun c => c.passed) = true)) ∧
    (∀ scens : List (OKey × List SA),
        (stressExitCode scens = 0 ↔
          (runsList scens).all (fun a => !(a.passed == some false)) = true)) := by
  constructor
  · intro t s
    have hst : (generateReport t s).status =
        (if (generateReport t s).checks.all (fun c => c.passed) then "pass"
         else "fail") := rfl
    rw [hst]
    cases hall : (generateReport t s).checks.all (fun c => c.passed) <;>
      simp [hall]
  · intro scens
    exact (stressExit_iff scens).trans (sFailed_eq_zero_iff scens)

/-- An entry opening a scenario that never records any assertion, for the
C6 counterexample. -/
def c6Entry : LogEntry :=
  (mkLogEntry (.obj [("timestamp", .str "t1"), ("message", .str "starting"),
    ("fields", .obj [("scenario", .str "load_test")])])).getD
    ⟨.null, .null, .null, .null, .null, .null⟩

/-- The scenario dict of the C6 counterexample stream. -/
def c6Scens : List (OKey × List SA) := (analyzeEntries [c6Entry]).getD []

/-- C6 counterexample: a stream producing one run with an Unknown verdict
exits with code 0, although not every run's verdict is Pass — refuting
"exit code 0 iff every run's verdict is Pass". -/
theorem C6_overall_verdict_counterexample :
    analyzeEntries [c6Entry] = some c6Scens ∧
    stressExitCode c6Scens = 0 ∧
    (runsList c6Scens).map (fun a => a.passed) = [none] ∧
    ¬((runsList c6Scens).all (fun a => a.passed == some true) = true) := by
  refine ⟨rfl, rfl, ?_, ?_⟩ <;> with_unfolding_all decide

theorem checkThresholds_metrics (catOpt : Option ThresholdCat) (key : String)
    (m : LatencyMetrics) :
    ∀ c ∈ checkThresholds catOpt key m,
      c.metric = key ++ "_latency_p99_us" ∨ c.metric = key ++ "_throughput" := by
  intro c hc
  unfold checkThresholds at hc
  rcases List.mem_append.mp hc with h | h
  · split at h
    · rcases List.mem_singleton.mp h with rfl
      exact Or.inl rfl
    · exact absurd h (List.not_mem_nil c)
  · split at h
    · rcases List.mem_singleton.mp h with rfl
      exact Or.inr rfl
    · exact absurd h (List.not_mem_nil c)

theorem filter_checkThresholds_nil (catOpt : Option ThresholdCat) (key : String)
    (m : LatencyMetrics) (nm : String)
    (h1 : (key ++ "_latency_p99_us" == nm) = false)
    (h2 : (key ++ "_throughput" == nm) = false) :
    (checkThresholds catOpt key m).filter (fun c => c.metric == nm) = [] := by
  rw [List.filter_eq_nil_iff]
  intro c hc
  rcases checkThresholds_metrics catOpt key m c hc with h | h <;>
    simp [h, h1, h2]

/-- C7: a failure-rate (or invite success-rate) check appears among the
report's checks exactly when its denominator (`successes + failures`,
respectively `accepted + failed`) is positive, and when present its
actual value is the exact quotient and it passes exactly when the rate is
within the configured bound (rate at most the failure-rate maximum,
success rate at least the configured minimum). -/
theorem C7_rate_checks_guarded :
    ∀ (t : Thresholds) (s : PQState),
      ((generateReport t s).checks.filter
          (fun c => c.metric == "verification_failure_rate")) =
        (if 0 < s.verify.successes + s.verify.failures then
          [⟨"verification_failure_rate",
            ((t.verification.getD emptyCat).failure_rate_max).getD (1/100),
            s.verify.failures / (s.verify.successes + s.verify.failures),
            decide (s.verify.failures / (s.verify.successes + s.verify.failures) ≤
              ((t.verification.getD emptyCat).failure_rate_max).getD (1/100))⟩]
         else []) ∧
      ((generateReport t s).checks.filter
          (fun c => c.metric == "kem_decap_failure_rate")) =
        (if 0 < s.kem_decap.successes + s.kem_decap.failures then
          [⟨"kem_decap_failure_rate",
            ((t.kem_decap.getD emptyCat).failure_rate_max).getD (1/100),
            s.kem_decap.failures / (s.kem_decap.successes + s.kem_decap.failures),
            decide (s.kem_decap.failures /
                (s.kem_decap.successes + s.kem_decap.failures) ≤
              ((t.kem_decap.getD emptyCat).failure_rate_max).getD (1/100))⟩]
         else []) ∧
      ((generateReport t s).checks.filter
          (fun c => c.metric == "invite_success_rate")) =
        (if 0 < s.invites_accepted + s.invites_failed then
          [⟨"invite_success_rate",
            ((t.invite.getD emptyCat).success_rate_min).getD (19/20),
            s.invites_accepted / (s.invites_accepted + s.invites_failed),
            decide (((t.invite.getD emptyCat).success_rate_min).getD (19/20) ≤
              s.invites_accepted / (s.invites_accepted + s.invites_failed))⟩]
         else []) := by
  intro t s
  refine ⟨?_, ?_, ?_⟩
  · have hb1 := filter_checkThresholds_nil t.signature "signature"
      (calculateStats s.sign.latencies) "verification_failure_rate"
      (by decide) (by decide)
    have hb2 := filter_checkThresholds_nil t.verification "verification"
      (calculateStats s.verify.latencies) "verification_failure_rate"
      (by decide) (by decide)
    have hb3 := filter_checkThresholds_nil t.kem_encap "kem_encap"
      (calculateStats s.kem_encap.latencies) "verification_failure_rate"
      (by decide) (by decide)
    have hb4 := filter_checkThresholds_nil t.kem_decap "kem_decap"
      (calculateStats s.kem_decap.latencies) "verification_failure_rate"
      (by decide) (by decide)
    simp only [generateReport, List.filter_append, hb1, hb2, hb3, hb4,
      List.nil_append, List.append_nil,
      apply_ite (List.filter
        (fun (c : ThresholdCheck) => c.metric == "verification_failure_rate")),
      List.filter_cons, List.filter_nil]
    simp [ite_self]
  · have hb1 := filter_checkThresholds_nil t.signature "signature"
      (calculateStats s.sign.latencies) "kem_decap_failure_rate"
      (by decide) (by decide)
    have hb2 := filter_checkThresholds_nil t.verification "verification"
      (calculateStats s.verify.latencies) "kem_decap_failure_rate"
      (by decide) (by decide)
    have hb3 := filter_checkThresholds_nil t.kem_encap "kem_encap"
      (calculateStats s.kem_encap.latencies) "kem_decap_failure_rate"
      (by decide) (by decide)
    have hb4 := filter_checkThresholds_nil t.kem_decap "kem_decap"
      (calculateStats s.kem_decap.latencies) "kem_decap_failure_rate"
      (by decide) (by decide)
    simp only [generateReport, List.filter_append, hb1, hb2, hb3, hb4,
      List.nil_append, List.append_nil,
      apply_ite (List.filter
        (fun (c : ThresholdCheck) => c.metric == "kem_decap_failure_rate")),
      List.filter_cons, List.filter_nil]
    simp [ite_self]
  · have hb1 := filter_checkThresholds_nil t.signature "signature"
      (calculateStats s.sign.latencies) "invite_success_rate"
      (by decide) (by decide)
    have hb2 := filter_checkThresholds_nil t.verification "verification"
      (calculateStats s.verify.latencies) "invite_success_rate"
      (by decide) (by decide)
    have hb3 := filter_checkThresholds_nil t.kem_encap "kem_encap"
      (calculateStats s.kem_encap.latencies) "invite_success_rate"
      (by decide) (by decide)
    have hb4 := filter_checkThresholds_nil t.kem_decap "kem_decap"
      (calculateStats s.kem_decap.latencies) "invite_success_rate"
      (by decide) (by decide)
    simp only [generateReport, List.filter_append, hb1, hb2, hb3, hb4,
      List.nil_append, List.append_nil,
      apply_ite (List.filter
        (fun (c : ThresholdCheck) => c.metric == "invite_success_rate")),
      List.filter_cons, List.filter_nil]
    simp [ite_self]

def lines8 : List String :=
  ["\x7b\"message\": \"m1\"\x7d", "\x7b\"message\": \"m2\"\x7d",
   "\x7b\"message\": \"m3\"\x7d", "\x7b\"message\": \"m4\"\x7d",
   "\x7b\"message\": \"m5\"\x7d", "THIS IS NOT JSON",
   "\x7b\"message\": \"m6\"\x7d", "\x7b\"message\": \"m7\"\x7d",
   "\x7b\"message\": \"m8\"\x7d", "\x7b\"message\": \"m9\"\x7d",
   "\x7b\"message\": \"m10\"\x7d"]

/-- C8 counterexample: a file of ten valid non-blank lines and one
syntactically invalid line yields ten parsed events (not nine) and one
skip-with-warning. -/
theorem C8_malformed_resilience_counterexample :
    lines8.length = 11 ∧
    lines8.countP
      (fun l => !(pyStrip l == "") && (parseJson (pyStrip l)).isSome) = 10 ∧
    lines8.countP
      (fun l => !(pyStrip l == "") && (parseJson (pyStrip l)).isNone) = 1 ∧
    (stressParseGo lines8).1.length = 10 ∧
    (stressParseGo lines8).2 = 1 ∧
    ¬((stressParseGo lines8).1.length = 9) := by
  decide

theorem stressParseGo_spec :
    ∀ ls : List String,
      (∀ l ∈ ls, (match parseJson (pyStrip l) with
                  | some j => (mkLogEntry j).isSome
                  | none => true) = true) →
      stressParseGo ls =
        (ls.filterMap (fun l =>
           if pyStrip l = "" then none
           else (parseJson (pyStrip l)).bind mkLogEntry),
         ls.countP (fun l => !(pyStrip l == "") && (parseJson (pyStrip l)).isNone)) := by
  intro ls h
  induction ls with
  | nil => rfl
  | cons l t ih =>
    have ht := fun x hx => h x (List.mem_cons_of_mem l hx)
    have hl := h l (List.mem_cons_self l t)
    simp only [stressParseGo]
    by_cases hb : pyStrip l = ""
    · rw [if_pos hb, ih ht]
      have hb' : (pyStrip l == "") = true := by simp [hb]
      simp [List.filterMap_cons, List.countP_cons, hb, hb']
    · rw [if_neg hb]
      rcases hp : parseJson (pyStrip l) with _ | j
      · simp only [hp] at hl ⊢
        rw [ih ht]
        have hb' : (pyStrip l == "") = false := by simp [hb]
        simp [List.filterMap_cons, List.countP_cons, hp, hb', hb]
      · rw [hp] at hl
        rcases he : mkLogEntry j with _ | e
        · simp [he] at hl
        · simp only [hp, he]
          rw [ih ht]
          have hb' : (pyStrip l == "") = false := by simp [hb]
          simp [List.filterMap_cons, List.countP_cons, hp, he, hb', hb]

/-- C8 (amended): line decoding never aborts — for any line list whose
decodable lines are JSON objects, the parsed events are exactly the
non-blank decodable lines (blank lines produce no event and no warning)
and the warning count is exactly the number of non-blank undecodable
lines; the concrete ten-valid/one-invalid file yields ten events and one
warning, and the pq analyzer counts the same single warning. -/
theorem C8_malformed_line_resilience :
    (∀ ls : List String,
      (∀ l ∈ ls, (match parseJson (pyStrip l) with
                  | some j => (mkLogEntry j).isSome
                  | none => true) = true) →
      stressParseGo ls =
        (ls.filterMap (fun l =>
           if pyStrip l = "" then none
           else (parseJson (pyStrip l)).bind mkLogEntry),
         ls.countP (fun l => !(pyStrip l == "") && (parseJson (pyStrip l)).isNone))) ∧
    (stressParseGo lines8).1.length = 10 ∧
    (stressParseGo lines8).2 = 1 ∧
    (pqProcessLines initPQState lines8).map (fun p => p.2) = some 1 := by
  refine ⟨stressParseGo_spec, by decide, by decide, by decide⟩

/-- A small concrete line list for the C8 witness (one valid line, one
blank line, one invalid line). -/
def c8wLines : List String := ["\x7b\"message\": \"ok\"\x7d", "", "oops"]

/-- Witness for C8 at a concrete line list. -/
theorem C8_malformed_line_resilience_witness :
    (∀ l ∈ c8wLines, (match parseJson (pyStrip l) with
        | some j => (mkLogEntry j).isSome
        | none => true) = true) ∧
    stressParseGo c8wLines =
      (c8wLines.filterMap (fun l =>
         if pyStrip l = "" then none
         else (parseJson (pyStrip l)).bind mkLogEntry),
       c8wLines.countP
         (fun l => !(pyStrip l == "") && (parseJson (pyStrip l)).isNone)) :=
  ⟨by decide, C8_malformed_line_resilience.1 c8wLines (by decide)⟩

/-- The `fields` payload as `_process_log_entry` of `pq_analyzer` sees it
(`none` models the crash on a non-dict record). -/
def pqFields : Json → Option Json
  | .obj ekvs => some (fieldsOf ekvs)
  | _ => none

/-- A record whose `fields` payload is a string containing JSON, for C9. -/
def rawDouble : Json :=
  .obj [("fields", .str "\x7b\"scenario\": \"alpha\"\x7d")]

/-- C9 counterexample: on a record with a string-encoded payload,
`pq_analyzer` decodes the inner JSON, but `stress_analyzer`'s `LogEntry`
keeps the raw string — the double-decode behaviour does not hold at the
`LogEntry` parsing boundary, refuting the claim's "this behaviour holds at
the event-parsing boundary of the analysis engine". -/
theorem C9_double_encoded_counterexample :
    pqFields rawDouble = some (.obj [("scenario", .str "alpha")]) ∧
    (mkLogEntry rawDouble).map (fun e => e.fields) =
      some (.str "\x7b\"scenario\": \"alpha\"\x7d") ∧
    ¬((mkLogEntry rawDouble).map (fun e => e.fields) =
       some (.obj [("scenario", .str "alpha")])) := by
  refine ⟨rfl, rfl, fun h => ?_⟩
  exact Json.noConfusion (Option.some.inj h)

/-- C9 (amended): in `pq_analyzer._process_log_entry` a native-object
payload is used as-is, a string payload is decoded as inner JSON, and a
failing inner decode falls back to the empty payload; `stress_analyzer`'s
`LogEntry.__init__`, by contrast, stores the raw `fields` value without
any inner decode. -/
theorem C9_double_encoded_fields :
    (∀ (rest : List (String × Json)) (o : List (String × Json)),
        pqFields (.obj (("fields", .obj o) :: rest)) = some (.obj o)) ∧
    (∀ (s : String) (j : Json), parseJson s = some j →
        ∀ rest : List (String × Json),
          pqFields (.obj (("fields", .str s) :: rest)) = some j) ∧
    (∀ s : String, parseJson s = none →
        ∀ rest : List (String × Json),
          pqFields (.obj (("fields", .str s) :: rest)) = some (.obj [])) ∧
    (∀ kvs : List (String × Json),
        (mkLogEntry (.obj kvs)).map (fun e => e.fields) =
          some (jgetD kvs "fields" (.obj []))) := by
  refine ⟨fun rest o => rfl, fun s j hj rest => ?_, fun s hs rest => ?_,
    fun kvs => rfl⟩
  · simp [pqFields, fieldsOf, jget, hj]
  · simp [pqFields, fieldsOf, jget, hs]

/-- Witness for C9 at concrete decodable and undecodable payloads. -/
theorem C9_double_encoded_fields_witness :
    parseJson "\x7b\"a\": true\x7d" = some (.obj [("a", .bool true)]) ∧
    pqFields (.obj [("fields", .str "\x7b\"a\": true\x7d")]) =
      some (.obj [("a", .bool true)]) ∧
    parseJson "nope" = none ∧
    pqFields (.obj [("fields", .str "nope")]) = some (.obj []) :=
  ⟨rfl,
   C9_double_encoded_fields.2.1 "\x7b\"a\": true\x7d" (.obj [("a", .bool true)]) rfl [],
   rfl,
   C9_double_encoded_fields.2.2.1 "nope" rfl []⟩
